import Mathlib

/-!
Shallow embedding of the Convex todo CRUD layer of `joshuagemvicente/todo-convex`
(functions `createTodo`, `listTodos`, `getTodo`, `updateTodo`, `deleteTodo`,
`toggleTodoCompleted` from the Convex backend module shown in
`src/CONVEX_TANSTACK_GUIDE.md`).

Strings are modelled as lists of characters (`Str`), JavaScript's
`String.prototype.trim` as `trimL` (dropping leading and trailing whitespace),
and the Convex document database as a `DB`: a list of inserted records kept in
insertion order together with a counter supplying fresh ids.  Convex assigns
each inserted document a fresh `_id` and a `_creationTime` that is strictly
larger than the creation time of every earlier document; the model uses the
counter for both.  `.order("desc")` iterates documents by descending
`_creationTime`, which on well-formed states (insertion order = ascending
creation time) is the reverse of the stored list.

A Convex mutation that throws aborts the whole transaction, so a failing
operation leaves the store untouched; the embedding reflects this by returning
`Except.error` without a successor state.
-/

abbrev Str := List Char

/-- JavaScript `String.prototype.trim`: remove leading and trailing whitespace. -/
def trimL (s : Str) : Str :=
  ((s.dropWhile Char.isWhitespace).reverse.dropWhile Char.isWhitespace).reverse

/-- A todo document as stored by Convex: system fields `_id` and
`_creationTime` plus the schema fields `title`, `description`, `completed`. -/
structure Todo where
  id : Nat
  creationTime : Nat
  title : Str
  description : Option Str
  completed : Bool
deriving DecidableEq, Repr

/-- Error taxonomy of the backend, with the exact thrown message.
`invalidInput` covers the validation throws, `notFound` the
"Todo not found" throws, `persistenceError` the failed read-after-write
throws ("Failed to create todo" / "Failed to update todo"). -/
inductive Err where
  | invalidInput (msg : String)
  | notFound (msg : String)
  | persistenceError (msg : String)
deriving DecidableEq, Repr

/-- The Convex table state: documents in insertion order plus a fresh-id
counter (used for both `_id` and `_creationTime`). -/
structure DB where
  nextId : Nat
  todos : List Todo
deriving DecidableEq, Repr

def emptyDB : DB := ⟨0, []⟩

/-- Model of `ctx.db.get(id)`: the document with the given id, if any. -/
def DB.get (db : DB) (id : Nat) : Option Todo :=
  db.todos.find? (fun t => t.id = id)

/-- Model of `ctx.db.insert` on the todos table: append a new document with a fresh id
and creation time, returning the new id and the new state. -/
def DB.insert (db : DB) (title : Str) (description : Option Str)
    (completed : Bool) : Nat × DB :=
  (db.nextId,
   ⟨db.nextId + 1,
    db.todos ++ [⟨db.nextId, db.nextId, title, description, completed⟩]⟩)

/-- The partial-update object `updateData` built by `updateTodo`: a field is
`some v` exactly when the corresponding key was set on the object. -/
structure UpdateData where
  title : Option Str := none
  description : Option Str := none
  completed : Option Bool := none
deriving DecidableEq, Repr

/-- Apply an `updateData` object to one document (`ctx.db.patch` semantics on
the matching document): present keys overwrite, absent keys leave the field). -/
def patchTodo (t : Todo) (u : UpdateData) : Todo :=
  { t with
    title := u.title.getD t.title
    description := match u.description with
      | some d => some d
      | none => t.description
    completed := u.completed.getD t.completed }

/-- Model of `ctx.db.patch(id, updateData)`: patch the document with the given id. -/
def DB.patch (db : DB) (id : Nat) (u : UpdateData) : DB :=
  ⟨db.nextId, db.todos.map (fun t => if t.id = id then patchTodo t u else t)⟩

/-- Model of `ctx.db.delete(id)`: remove the document with the given id. -/
def DB.erase (db : DB) (id : Nat) : DB :=
  ⟨db.nextId, db.todos.filter (fun t => ¬ t.id = id)⟩

/-- Well-formed (reachable) store states: every stored id and creation time is
below the counter, ids are pairwise distinct, and creation times strictly
increase in insertion order. -/
def WF (db : DB) : Prop :=
  (∀ t ∈ db.todos, t.id < db.nextId) ∧
  (∀ t ∈ db.todos, t.creationTime < db.nextId) ∧
  db.todos.Pairwise (fun a b => a.id ≠ b.id) ∧
  db.todos.Pairwise (fun a b => a.creationTime < b.creationTime)

instance (db : DB) : Decidable (WF db) := by
  unfold WF; infer_instance

/-- The title-validation block at the top of `createTodo`:
`!args.title || args.title.trim().length === 0` rejects with
"Title is required", then `args.title.length > 200` rejects with
"Title must be less than 200 characters". -/
def createTitleError (title : Str) : Option Err :=
  if title = [] ∨ (trimL title).length = 0 then
    some (.invalidInput "Title is required")
  else if title.length > 200 then
    some (.invalidInput "Title must be less than 200 characters")
  else none

/-- The description-validation check of `createTodo`:
`args.description && args.description.length > 1000` (truthiness: the check
only fires on a present, non-empty string). -/
def createDescriptionError (description : Option Str) : Option Err :=
  match description with
  | some d =>
    if ¬ d = [] ∧ d.length > 1000 then
      some (.invalidInput "Description must be less than 1000 characters")
    else none
  | none => none

/-- The `createTodo` mutation: validate title and description, insert the trimmed
title and optionally-trimmed description with the supplied completed flag,
read the document back, and return it. -/
def createTodo (db : DB) (title : Str) (description : Option Str)
    (completed : Bool) : Except Err (Todo × DB) :=
  match createTitleError title with
  | some e => .error e
  | none =>
    match createDescriptionError description with
    | some e => .error e
    | none =>
      let (todoId, db') := db.insert (trimL title) (description.map trimL) completed
      match db'.get todoId with
      | none => .error (.persistenceError "Failed to create todo")
      | some t => .ok (t, db')

/-- The `listTodos` query: default `limit` 100; with a `completed` filter, serve
from the `by_completed` index in descending creation order; otherwise the
whole table in descending creation order; `take(limit)` either way. -/
def listTodos (db : DB) (completed : Option Bool) (limit : Option Nat) :
    List Todo :=
  let lim := limit.getD 100
  match completed with
  | some c => ((db.todos.filter (fun t => t.completed = c)).reverse).take lim
  | none => (db.todos.reverse).take lim

/-- The `getTodo` query: `ctx.db.get(todoId) ?? null`. -/
def getTodo (db : DB) (todoId : Nat) : Option Todo :=
  db.get todoId

/-- The `if (args.title !== undefined)` block of `updateTodo`: a supplied
title is rejected when it trims to empty ("Title cannot be empty") or its
untrimmed length exceeds 200; otherwise its trimmed form goes into
`updateData`. -/
def updateTitleField (title : Option Str) : Except Err (Option Str) :=
  match title with
  | none => .ok none
  | some s =>
    if (trimL s).length = 0 then .error (.invalidInput "Title cannot be empty")
    else if s.length > 200 then
      .error (.invalidInput "Title must be less than 200 characters")
    else .ok (some (trimL s))

/-- The `if (args.description !== undefined)` block of `updateTodo`: a
supplied description is rejected when non-empty (truthy) with untrimmed length
above 1000; otherwise its trimmed form goes into `updateData`. -/
def updateDescriptionField (description : Option Str) :
    Except Err (Option Str) :=
  match description with
  | none => .ok none
  | some d =>
    if ¬ d = [] ∧ d.length > 1000 then
      .error (.invalidInput "Description must be less than 1000 characters")
    else .ok (some (trimL d))

/-- The `updateTodo` mutation: look up the document (else "Todo not found"),
validate each supplied field into `updateData`, patch, read back, return the
updated document. -/
def updateTodo (db : DB) (todoId : Nat) (title : Option Str)
    (description : Option Str) (completed : Option Bool) :
    Except Err (Todo × DB) :=
  match db.get todoId with
  | none => .error (.notFound "Todo not found")
  | some _ =>
    match updateTitleField title with
    | .error e => .error e
    | .ok ut =>
      match updateDescriptionField description with
      | .error e => .error e
      | .ok ud =>
        let db' := db.patch todoId ⟨ut, ud, completed⟩
        match db'.get todoId with
        | none => .error (.persistenceError "Failed to update todo")
        | some t => .ok (t, db')

/-- The `deleteTodo` mutation: look up the document (else "Todo not found"),
delete it, return null. -/
def deleteTodo (db : DB) (todoId : Nat) : Except Err (Unit × DB) :=
  match db.get todoId with
  | none => .error (.notFound "Todo not found")
  | some _ => .ok ((), db.erase todoId)

/-- The `toggleTodoCompleted` mutation: look up the document (else
"Todo not found"), patch `completed` to its negation, read back, return the
updated document. -/
def toggleTodoCompleted (db : DB) (todoId : Nat) : Except Err (Todo × DB) :=
  match db.get todoId with
  | none => .error (.notFound "Todo not found")
  | some t =>
    let db' := db.patch todoId ⟨none, none, some (!t.completed)⟩
    match db'.get todoId with
    | none => .error (.persistenceError "Failed to update todo")
    | some u => .ok (u, db')

/-! ### Basic facts about `trimL` -/

theorem trimL_sublist (s : Str) : (trimL s).Sublist s := by
  unfold trimL
  have h1 : ((s.dropWhile Char.isWhitespace).reverse.dropWhile
      Char.isWhitespace).reverse.Sublist (s.dropWhile Char.isWhitespace) := by
    have := (List.dropWhile_sublist (l := (s.dropWhile Char.isWhitespace).reverse)
      Char.isWhitespace).reverse
    simpa using this
  exact h1.trans (List.dropWhile_sublist _)

theorem trimL_length_le (s : Str) : (trimL s).length ≤ s.length :=
  (trimL_sublist s).length_le

theorem trimL_nil : trimL [] = [] := rfl

theorem dropWhile_dropWhile (p : Char → Bool) (l : List Char) :
    (l.dropWhile p).dropWhile p = l.dropWhile p := by
  cases h : l.dropWhile p with
  | nil => simp
  | cons a t =>
    have ha : p a = false := by
      have hne : l.dropWhile p ≠ [] := by simp [h]
      have := List.head_dropWhile_not p l hne
      simpa [h] using this
    simp [List.dropWhile_cons, ha]

theorem trimL_trimL (s : Str) : trimL (trimL s) = trimL s := by
  have hhead : ∀ (l : List Char), (l.dropWhile Char.isWhitespace).dropWhile
      Char.isWhitespace = l.dropWhile Char.isWhitespace := dropWhile_dropWhile _
  unfold trimL
  set p := Char.isWhitespace with hp
  set A := s.dropWhile p with hA
  set B := A.reverse.dropWhile p with hB
  have h1 : B.reverse.dropWhile p = B.reverse := by
    cases hBr : B.reverse with
    | nil => simp
    | cons b t =>
      have hsplit : A.reverse.takeWhile p ++ B = A.reverse := by
        rw [hB]; exact List.takeWhile_append_dropWhile p A.reverse
      have hAeq : A = B.reverse ++ (A.reverse.takeWhile p).reverse := by
        have := congrArg List.reverse hsplit
        simpa [List.reverse_append] using this.symm
      rw [hBr] at hAeq
      have hAne : A ≠ [] := by rw [hAeq]; simp
      have hb : p b = false := by
        have hne : s.dropWhile p ≠ [] := by rw [← hA] at *; exact hAne
        have := List.head_dropWhile_not p s hne
        have hhd : (s.dropWhile p).head hne = b := by
          have : A.head hAne = b := by
            have := hAeq
            revert hAne
            rw [this]
            intro h
            simp
          simpa [hA] using this
        rwa [hhd] at this
      simp [hBr, List.dropWhile_cons, hb]
  have h2 : B.reverse.reverse.dropWhile p = B := by
    rw [List.reverse_reverse, hB, hhead]
  rw [h1, h2]

/-! ### Facts about the store primitives -/

@[simp] theorem patchTodo_id (t : Todo) (u : UpdateData) :
    (patchTodo t u).id = t.id := rfl

@[simp] theorem patchTodo_creationTime (t : Todo) (u : UpdateData) :
    (patchTodo t u).creationTime = t.creationTime := rfl

theorem DB.get_patch (db : DB) (id : Nat) (u : UpdateData) :
    (db.patch id u).get id
      = (db.get id).map (fun t => if t.id = id then patchTodo t u else t) := by
  unfold DB.get DB.patch
  rw [List.find?_map]
  have hfun : ((fun t : Todo => decide (t.id = id)) ∘
      fun t : Todo => if t.id = id then patchTodo t u else t)
      = fun t : Todo => decide (t.id = id) := by
    funext t
    by_cases h : t.id = id <;> simp [h]
  rw [hfun]

theorem DB.get_patch_some {db : DB} {id : Nat} {t0 : Todo} (u : UpdateData)
    (h : db.get id = some t0) : (db.patch id u).get id = some (patchTodo t0 u) := by
  have h' : db.todos.find? (fun t => decide (t.id = id)) = some t0 := h
  have hid : t0.id = id := by
    have := List.find?_some h'
    simpa using this
  rw [DB.get_patch, h]
  simp [hid]

theorem DB.get_insert_fresh (db : DB) (ti : Str) (d : Option Str) (c : Bool)
    (h : ∀ t ∈ db.todos, t.id ≠ db.nextId) :
    ((db.insert ti d c).2).get (db.insert ti d c).1
      = some ⟨db.nextId, db.nextId, ti, d, c⟩ := by
  unfold DB.insert DB.get
  simp only [List.find?_append]
  have hn : db.todos.find? (fun t => decide (t.id = db.nextId)) = none :=
    List.find?_eq_none.2 (fun x hx => by simp [h x hx])
  simp [hn, List.find?]

theorem DB.get_erase (db : DB) (id : Nat) : (db.erase id).get id = none := by
  unfold DB.erase DB.get
  apply List.find?_eq_none.2
  intro x hx
  simp only [List.mem_filter] at hx
  simpa using hx.2

theorem mem_patch_todos {db : DB} {id : Nat} {u : UpdateData} {x : Todo}
    (hx : x ∈ (db.patch id u).todos) :
    ∃ y ∈ db.todos, (y.id ≠ id ∧ x = y) ∨ (y.id = id ∧ x = patchTodo y u) := by
  unfold DB.patch at hx
  simp only [List.mem_map] at hx
  obtain ⟨y, hy, hxy⟩ := hx
  refine ⟨y, hy, ?_⟩
  by_cases h : y.id = id
  · right; refine ⟨h, ?_⟩; rw [← hxy]; simp [h]
  · left; refine ⟨h, ?_⟩; rw [← hxy]; simp [h]

/-! ### Validation helper characterisations -/

theorem createTitleError_eq_none {title : Str} :
    createTitleError title = none ↔ (trimL title ≠ [] ∧ title.length ≤ 200) := by
  unfold createTitleError
  split_ifs with h1 h2
  · refine ⟨(fun h => by cases h), fun hc => ?_⟩
    obtain ⟨ha, hb⟩ := hc
    rcases h1 with hc | hc
    · exact absurd (by rw [hc, trimL_nil]) ha
    · exact absurd (List.length_eq_zero.1 hc) ha
  · refine ⟨(fun h => by cases h), fun hc => ?_⟩
    exact absurd hc.2 (by omega)
  · refine ⟨fun _ => ?_, fun _ => rfl⟩
    push_neg at h1
    refine ⟨fun hc => h1.2 (by rw [hc]; rfl), by omega⟩

theorem createDescriptionError_eq_none {d : Option Str}
    (h : ∀ s ∈ d, s.length ≤ 1000) : createDescriptionError d = none := by
  unfold createDescriptionError
  cases d with
  | none => rfl
  | some s =>
    have hs := h s rfl
    have hns : ¬ (¬ s = [] ∧ s.length > 1000) := fun hcon => absurd hcon.2 (by omega)
    simp [hns]

theorem updateTitleField_ok {title : Option Str}
    (h : ∀ s ∈ title, trimL s ≠ [] ∧ s.length ≤ 200) :
    updateTitleField title = .ok (title.map trimL) := by
  unfold updateTitleField
  cases title with
  | none => rfl
  | some s =>
    obtain ⟨h1, h2⟩ := h s rfl
    have hz : ¬ (trimL s).length = 0 := fun hc => h1 (List.length_eq_zero.1 hc)
    have hl : ¬ s.length > 200 := by omega
    simp [hz, hl]

theorem updateDescriptionField_ok {d : Option Str}
    (h : ∀ s ∈ d, s.length ≤ 1000) :
    updateDescriptionField d = .ok (d.map trimL) := by
  unfold updateDescriptionField
  cases d with
  | none => rfl
  | some s =>
    have hs := h s rfl
    have hns : ¬ (¬ s = [] ∧ s.length > 1000) := fun hcon => absurd hcon.2 (by omega)
    simp [hns]

/-- On valid input (title nonempty after trimming, untrimmed title length at
most 200, untrimmed description length at most 1000) and fresh counter,
`createTodo` succeeds and returns exactly the inserted record and state. -/
theorem createTodo_ok (db : DB) (title : Str) (d : Option Str) (c : Bool)
    (hfresh : ∀ t ∈ db.todos, t.id ≠ db.nextId)
    (ht1 : trimL title ≠ []) (ht2 : title.length ≤ 200)
    (hd : ∀ s ∈ d, s.length ≤ 1000) :
    createTodo db title d c
      = .ok (⟨db.nextId, db.nextId, trimL title, d.map trimL, c⟩,
             ⟨db.nextId + 1,
              db.todos ++ [⟨db.nextId, db.nextId, trimL title, d.map trimL, c⟩]⟩) := by
  have hg := DB.get_insert_fresh db (trimL title) (d.map trimL) c hfresh
  simp only [DB.insert] at hg
  simp only [createTodo, createTitleError_eq_none.2 ⟨ht1, ht2⟩,
    createDescriptionError_eq_none hd, DB.insert, hg]

/-- On an existing id and valid supplied fields, `updateTodo` succeeds and
returns exactly the patched record and patched state. -/
theorem updateTodo_ok (db : DB) (id : Nat) (t0 : Todo)
    (ti de : Option Str) (co : Option Bool)
    (h : db.get id = some t0)
    (hti : ∀ s ∈ ti, trimL s ≠ [] ∧ s.length ≤ 200)
    (hde : ∀ s ∈ de, s.length ≤ 1000) :
    updateTodo db id ti de co
      = .ok (patchTodo t0 ⟨ti.map trimL, de.map trimL, co⟩,
             db.patch id ⟨ti.map trimL, de.map trimL, co⟩) := by
  simp only [updateTodo, h, updateTitleField_ok hti, updateDescriptionField_ok hde,
    DB.get_patch_some ⟨ti.map trimL, de.map trimL, co⟩ h]

/-! ### Concrete states used to instantiate the theorems -/

/-- A small reachable store: two records, one incomplete and one completed. -/
def dbW : DB := ⟨2, [⟨0, 0, ['a'], none, false⟩, ⟨1, 1, ['b'], none, true⟩]⟩

/-- A title of 201 characters (one letter, 200 trailing blanks) whose trimmed
length is 1. -/
def cexTitle : Str := 'a' :: List.replicate 200 ' '

/-- A description of 1001 characters (1000 letters, one trailing blank) whose
trimmed length is 1000. -/
def cexDesc : Str := List.replicate 1000 'a' ++ [' ']

/-! ### Claim C1 -/

set_option maxRecDepth 20000 in
/-- C1 counterexample: the claim quantifies over titles of trimmed length
1–200 and descriptions of trimmed length at most 1000, but `createTodo`
checks the untrimmed lengths.  `cexTitle` trims to length 1 yet `create`
fails; `cexDesc` trims to length 1000 yet `create` fails. -/
theorem C1_counterexample :
    (1 ≤ (trimL cexTitle).length ∧ (trimL cexTitle).length ≤ 200 ∧
      createTodo emptyDB cexTitle none false
        = .error (.invalidInput "Title must be less than 200 characters")) ∧
    ((trimL cexDesc).length ≤ 1000 ∧
      createTodo emptyDB ['a'] (some cexDesc) false
        = .error (.invalidInput "Description must be less than 1000 characters")) :=
  ⟨⟨by decide, by decide, by rfl⟩, ⟨by decide, by rfl⟩⟩

/-- C1 (amended): for every title that is nonempty after trimming and of
untrimmed length at most 200, and every optional description of untrimmed
length at most 1000, `createTodo` succeeds on any well-formed store; the
returned record's title and description are the trimmed inputs, its
completed flag is the supplied one, and its id and creation time are fresh
(distinct from every stored id, strictly above every stored creation time). -/
theorem C1_create_valid (db : DB) (title : Str) (description : Option Str)
    (completed : Bool) (hwf : WF db)
    (ht1 : trimL title ≠ []) (ht2 : title.length ≤ 200)
    (hd : ∀ s ∈ description, s.length ≤ 1000) :
    ∃ t db', createTodo db title description completed = .ok (t, db') ∧
      t.title = trimL title ∧
      t.description = description.map trimL ∧
      t.completed = completed ∧
      (∀ u ∈ db.todos, u.id ≠ t.id) ∧
      (∀ u ∈ db.todos, u.creationTime < t.creationTime) ∧
      db'.todos = db.todos ++ [t] := by
  have hfresh : ∀ u ∈ db.todos, u.id ≠ db.nextId :=
    fun u hu => Nat.ne_of_lt (hwf.1 u hu)
  refine ⟨_, _, createTodo_ok db title description completed hfresh ht1 ht2 hd,
    rfl, rfl, rfl, ?_, ?_, rfl⟩
  · exact hfresh
  · exact fun u hu => hwf.2.1 u hu

/-- C1 witness at a concrete valid input. -/
theorem C1_witness :
    ∃ t db', createTodo emptyDB ['h', 'i'] (some ['d']) true = .ok (t, db') ∧
      t.title = trimL ['h', 'i'] ∧
      t.description = (some ['d']).map trimL ∧
      t.completed = true ∧
      (∀ u ∈ emptyDB.todos, u.id ≠ t.id) ∧
      (∀ u ∈ emptyDB.todos, u.creationTime < t.creationTime) ∧
      db'.todos = emptyDB.todos ++ [t] :=
  C1_create_valid emptyDB ['h', 'i'] (some ['d']) true (by decide) (by decide)
    (by decide) (by intro s hs; rw [Option.mem_def] at hs; cases hs; decide)

/-! ### Claim C2 -/

set_option maxRecDepth 20000 in
/-- C2: title validation in `createTodo` rejects exactly the titles that are
empty after trimming or of untrimmed length above 200; concretely an
all-whitespace title and a 201-character title are rejected while a
200-character title is accepted. -/
theorem C2_title_validation :
    (∀ title : Str,
      (createTitleError title).isSome ↔ (trimL title = [] ∨ 200 < title.length)) ∧
    createTodo emptyDB (List.replicate 3 ' ') none false
      = .error (.invalidInput "Title is required") ∧
    createTodo emptyDB (List.replicate 201 'a') none false
      = .error (.invalidInput "Title must be less than 200 characters") ∧
    (∃ t db', createTodo emptyDB (List.replicate 200 'a') none false
      = .ok (t, db')) := by
  refine ⟨?_, by rfl, by rfl, ⟨_, _, rfl⟩⟩
  intro title
  constructor
  · intro h
    by_contra hc
    push_neg at hc
    rw [createTitleError_eq_none.2 ⟨hc.1, by omega⟩] at h
    simp at h
  · intro h
    cases ho : createTitleError title with
    | some e => simp
    | none =>
      have hn := createTitleError_eq_none.1 ho
      rcases h with h | h
      · exact absurd h hn.1
      · exact absurd hn.2 (by omega)

/-! ### Claim C3 -/

/-- C3: on any well-formed store, `listTodos` returns at most `limit` records
(default 100), in strictly descending creation order; with a `completed`
filter every returned record matches it; with no filter every stored record
(of either completion state) is returned whenever the store fits the limit. -/
theorem C3_list_shape (db : DB) (c : Option Bool) (lim : Option Nat)
    (hwf : WF db) :
    (listTodos db c lim).length ≤ lim.getD 100 ∧
    (listTodos db c lim).Pairwise (fun a b => b.creationTime < a.creationTime) ∧
    (∀ b, c = some b → ∀ t ∈ listTodos db c lim, t.completed = b) ∧
    (c = none → db.todos.length ≤ lim.getD 100 →
      ∀ t ∈ db.todos, t ∈ listTodos db c lim) := by
  have hpw : db.todos.Pairwise (fun a b => a.creationTime < b.creationTime) :=
    hwf.2.2.2
  refine ⟨?_, ?_, ?_, ?_⟩
  · unfold listTodos
    cases c <;> · simp only; rw [List.length_take]; exact inf_le_left
  · unfold listTodos
    cases c with
    | none =>
      exact List.Pairwise.sublist (List.take_sublist _ _) (List.pairwise_reverse.2 hpw)
    | some b =>
      exact List.Pairwise.sublist (List.take_sublist _ _)
        (List.pairwise_reverse.2 (hpw.filter _))
  · intro b hc t ht
    subst hc
    have h1 := (List.take_sublist _ _).subset ht
    rw [List.mem_reverse] at h1
    exact of_decide_eq_true (List.mem_filter.1 h1).2
  · intro hc hlen t ht
    subst hc
    unfold listTodos
    simp only
    rw [List.take_of_length_le (by rw [List.length_reverse]; exact hlen)]
    exact List.mem_reverse.2 ht

/-- C3 witness on a concrete two-record store. -/
theorem C3_witness :
    (listTodos dbW none none).length ≤ (none : Option Nat).getD 100 ∧
    (listTodos dbW none none).Pairwise
      (fun a b => b.creationTime < a.creationTime) ∧
    (∀ b, (none : Option Bool) = some b →
      ∀ t ∈ listTodos dbW none none, t.completed = b) ∧
    ((none : Option Bool) = none →
      dbW.todos.length ≤ (none : Option Nat).getD 100 →
      ∀ t ∈ dbW.todos, t ∈ listTodos dbW none none) :=
  C3_list_shape dbW none none (by decide)

/-! ### Claim C4 -/

/-- A reachable store of 101 records: the oldest is completed, the newer 100
are not. -/
def db101 : DB :=
  ⟨101, (List.range 101).map (fun i => ⟨i, i, ['t'], none, i == 0⟩)⟩

set_option maxRecDepth 100000 in
/-- C4 counterexample: on `db101` (well-formed, reachable by 101 creates),
`list({completed: true})` returns the old completed record, which the
default-limit `list({})` has already truncated away — so the subset claim
fails as stated. -/
theorem C4_counterexample :
    WF db101 ∧
    (∃ t, t ∈ listTodos db101 (some true) none ∧
      t ∉ listTodos db101 none none) := by
  constructor
  · decide
  · exact ⟨⟨0, 0, ['t'], none, true⟩, by decide, by decide⟩

/-- C4 (amended): every record returned by `list({completed: true})` has
`completed = true`, and whenever the store holds at most 100 records (the
default limit) the records returned by `list({completed: true})` are a
subset of those returned by `list({})`. -/
theorem C4_filter_subset (db : DB) :
    (∀ t ∈ listTodos db (some true) none, t.completed = true) ∧
    (db.todos.length ≤ 100 →
      ∀ t ∈ listTodos db (some true) none, t ∈ listTodos db none none) := by
  constructor
  · intro t ht
    have h1 := (List.take_sublist _ _).subset ht
    rw [List.mem_reverse] at h1
    exact of_decide_eq_true (List.mem_filter.1 h1).2
  · intro hlen t ht
    have h1 := (List.take_sublist _ _).subset ht
    rw [List.mem_reverse] at h1
    have h2 : t ∈ db.todos := (List.mem_filter.1 h1).1
    unfold listTodos
    simp only
    rw [List.take_of_length_le (by rw [List.length_reverse]; exact hlen)]
    exact List.mem_reverse.2 h2

/-- C4 witness: on the two-record store the subset inclusion holds. -/
theorem C4_witness :
    dbW.todos.length ≤ 100 ∧
    ∀ t ∈ listTodos dbW (some true) none, t ∈ listTodos dbW none none :=
  ⟨by decide, (C4_filter_subset dbW).2 (by decide)⟩

/-! ### Claim C5 -/

/-- C5: `updateTodo` validates before mutating and fails atomically — on a
missing id it fails with the "Todo not found" error whatever fields are
supplied, and on an existing id with an empty-string title it fails with the
"Title cannot be empty" error.  A failing run returns no successor state
(the Convex transaction rolls back), so the store — including the targeted
record's stored title — is unchanged. -/
theorem C5_update_validation (db : DB) (id : Nat) :
    (db.get id = none →
      ∀ ti de co, updateTodo db id ti de co
        = .error (.notFound "Todo not found")) ∧
    (∀ t0, db.get id = some t0 →
      ∀ de co, updateTodo db id (some []) de co
        = .error (.invalidInput "Title cannot be empty")) := by
  constructor
  · intro h ti de co
    simp only [updateTodo, h]
  · intro t0 h de co
    simp [updateTodo, h, updateTitleField, trimL_nil]

/-- C5 witness at concrete inputs. -/
theorem C5_witness :
    updateTodo emptyDB 0 (some ['x']) none none
      = .error (.notFound "Todo not found") ∧
    updateTodo dbW 0 (some []) none (some true)
      = .error (.invalidInput "Title cannot be empty") :=
  ⟨(C5_update_validation emptyDB 0).1 rfl (some ['x']) none none,
   (C5_update_validation dbW 0).2 ⟨0, 0, ['a'], none, false⟩ (by decide)
     none (some true)⟩

/-! ### Claim C6 -/

/-- C6: `updateTodo` is a partial update — on an existing record with valid
supplied fields it succeeds; the supplied title/description are stored
trimmed, every omitted field keeps its previous value, the id and creation
time of every record are unchanged, the untargeted records are untouched,
and the full updated record is returned. -/
theorem C6_update_frame (db : DB) (id : Nat) (t0 : Todo)
    (ti de : Option Str) (co : Option Bool)
    (h : db.get id = some t0)
    (hti : ∀ s ∈ ti, trimL s ≠ [] ∧ s.length ≤ 200)
    (hde : ∀ s ∈ de, s.length ≤ 1000) :
    ∃ t' db', updateTodo db id ti de co = .ok (t', db') ∧
      t'.id = t0.id ∧ t'.creationTime = t0.creationTime ∧
      t'.title = (ti.map trimL).getD t0.title ∧
      t'.description = (match de with
        | some d => some (trimL d)
        | none => t0.description) ∧
      t'.completed = co.getD t0.completed ∧
      db'.todos.map Todo.id = db.todos.map Todo.id ∧
      db'.todos.map Todo.creationTime = db.todos.map Todo.creationTime ∧
      (∀ u ∈ db.todos, u.id ≠ id → u ∈ db'.todos) ∧
      (∀ u ∈ db'.todos, u.id ≠ id → u ∈ db.todos) := by
  refine ⟨_, _, updateTodo_ok db id t0 ti de co h hti hde,
    rfl, rfl, rfl, ?_, rfl, ?_, ?_, ?_, ?_⟩
  · cases de <;> rfl
  · unfold DB.patch
    simp only [List.map_map]
    congr 1
    funext u
    by_cases hu : u.id = id <;> simp [hu]
  · unfold DB.patch
    simp only [List.map_map]
    congr 1
    funext u
    by_cases hu : u.id = id <;> simp [hu]
  · intro u hu hne
    unfold DB.patch
    simp only [List.mem_map]
    exact ⟨u, hu, by simp [hne]⟩
  · intro u hu hne
    obtain ⟨y, hy, hcase⟩ := mem_patch_todos hu
    rcases hcase with ⟨_, rfl⟩ | ⟨hid, rfl⟩
    · exact hy
    · exact absurd (by simp [hid] : (patchTodo y _).id = id) hne

/-- C6 witness: update only the title of record 0 in the two-record store. -/
theorem C6_witness :
    ∃ t' db', updateTodo dbW 0 (some ['n']) none none = .ok (t', db') ∧
      t'.id = (⟨0, 0, ['a'], none, false⟩ : Todo).id ∧
      t'.creationTime = (⟨0, 0, ['a'], none, false⟩ : Todo).creationTime ∧
      t'.title = ((some ['n']).map trimL).getD
        (⟨0, 0, ['a'], none, false⟩ : Todo).title ∧
      t'.description = (match (none : Option Str) with
        | some d => some (trimL d)
        | none => (⟨0, 0, ['a'], none, false⟩ : Todo).description) ∧
      t'.completed = (none : Option Bool).getD
        (⟨0, 0, ['a'], none, false⟩ : Todo).completed ∧
      db'.todos.map Todo.id = dbW.todos.map Todo.id ∧
      db'.todos.map Todo.creationTime = dbW.todos.map Todo.creationTime ∧
      (∀ u ∈ dbW.todos, u.id ≠ 0 → u ∈ db'.todos) ∧
      (∀ u ∈ db'.todos, u.id ≠ 0 → u ∈ dbW.todos) :=
  C6_update_frame dbW 0 ⟨0, 0, ['a'], none, false⟩ (some ['n']) none none
    (by decide)
    (by intro s hs; rw [Option.mem_def] at hs; cases hs; exact ⟨by decide, by decide⟩)
    (by intro s hs; rw [Option.mem_def] at hs; cases hs)

/-! ### Claim C7 -/

/-- C7: `deleteTodo` on a missing id fails with the "Todo not found" error;
on an existing id it succeeds with no payload, after which `getTodo` on that
id returns absence and a second `deleteTodo` fails with "Todo not found". -/
theorem C7_delete (db : DB) (id : Nat) :
    (db.get id = none →
      deleteTodo db id = .error (.notFound "Todo not found")) ∧
    (∀ t0, db.get id = some t0 →
      ∃ db', deleteTodo db id = .ok ((), db') ∧
        getTodo db' id = none ∧
        deleteTodo db' id = .error (.notFound "Todo not found")) := by
  constructor
  · intro h
    simp only [deleteTodo, h]
  · intro t0 h
    refine ⟨db.erase id, ?_, ?_, ?_⟩
    · simp only [deleteTodo, h]
    · exact DB.get_erase db id
    · simp only [deleteTodo, DB.get_erase]

/-- C7 witness: delete record 1 of the two-record store, then observe
absence and a failing second delete. -/
theorem C7_witness :
    ∃ db', deleteTodo dbW 1 = .ok ((), db') ∧
      getTodo db' 1 = none ∧
      deleteTodo db' 1 = .error (.notFound "Todo not found") :=
  (C7_delete dbW 1).2 ⟨1, 1, ['b'], none, true⟩ (by decide)

/-! ### Claim C8 -/

/-- C8: `toggleTodoCompleted` on an existing record flips only the stored
completed flag and returns the updated record; applied twice it restores the
original completed value (an involution on the flag). -/
theorem C8_toggle_involution (db : DB) (id : Nat) (t0 : Todo)
    (h : db.get id = some t0) :
    ∃ t1 db1, toggleTodoCompleted db id = .ok (t1, db1) ∧
      t1.completed = !t0.completed ∧
      t1.id = t0.id ∧ t1.creationTime = t0.creationTime ∧
      t1.title = t0.title ∧ t1.description = t0.description ∧
      ∃ t2 db2, toggleTodoCompleted db1 id = .ok (t2, db2) ∧
        t2.completed = t0.completed := by
  have h1 : (db.patch id ⟨none, none, some (!t0.completed)⟩).get id
      = some (patchTodo t0 ⟨none, none, some (!t0.completed)⟩) :=
    DB.get_patch_some _ h
  refine ⟨patchTodo t0 ⟨none, none, some (!t0.completed)⟩,
    db.patch id ⟨none, none, some (!t0.completed)⟩,
    ?_, rfl, rfl, rfl, rfl, rfl, ?_⟩
  · simp only [toggleTodoCompleted, h, h1]
  · set db1 := db.patch id ⟨none, none, some (!t0.completed)⟩ with hdb1
    set t1 := patchTodo t0 ⟨none, none, some (!t0.completed)⟩ with ht1
    have h2 : db1.get id = some t1 := h1
    have h3 : (db1.patch id ⟨none, none, some (!t1.completed)⟩).get id
        = some (patchTodo t1 ⟨none, none, some (!t1.completed)⟩) :=
      DB.get_patch_some _ h2
    refine ⟨patchTodo t1 ⟨none, none, some (!t1.completed)⟩,
      db1.patch id ⟨none, none, some (!t1.completed)⟩, ?_, ?_⟩
    · simp only [toggleTodoCompleted, h2, h3]
    · show (patchTodo t1 ⟨none, none, some (!t1.completed)⟩).completed
        = t0.completed
      simp [patchTodo, ht1, Bool.not_not]

/-- C8 witness: toggling record 1 (completed) of the two-record store twice. -/
theorem C8_witness :
    ∃ t1 db1, toggleTodoCompleted dbW 1 = .ok (t1, db1) ∧
      t1.completed = !(⟨1, 1, ['b'], none, true⟩ : Todo).completed ∧
      t1.id = (⟨1, 1, ['b'], none, true⟩ : Todo).id ∧
      t1.creationTime = (⟨1, 1, ['b'], none, true⟩ : Todo).creationTime ∧
      t1.title = (⟨1, 1, ['b'], none, true⟩ : Todo).title ∧
      t1.description = (⟨1, 1, ['b'], none, true⟩ : Todo).description ∧
      ∃ t2 db2, toggleTodoCompleted db1 1 = .ok (t2, db2) ∧
        t2.completed = (⟨1, 1, ['b'], none, true⟩ : Todo).completed :=
  C8_toggle_involution dbW 1 ⟨1, 1, ['b'], none, true⟩ (by decide)

/-! ### Claim C9 -/

/-- The persisted-title invariant: every stored record's title is nonempty
after trimming and at most 200 characters long. -/
def TitleInv (db : DB) : Prop :=
  ∀ t ∈ db.todos, trimL t.title ≠ [] ∧ t.title.length ≤ 200

instance (db : DB) : Decidable (TitleInv db) := by
  unfold TitleInv; infer_instance

theorem updateTitleField_ok_inv {ti ut : Option Str}
    (h : updateTitleField ti = .ok ut) :
    ∀ v ∈ ut, trimL v ≠ [] ∧ v.length ≤ 200 := by
  cases ti with
  | none =>
    unfold updateTitleField at h
    cases Except.ok.inj h
    intro v hv
    cases hv
  | some s =>
    replace h : (if (trimL s).length = 0 then
        (Except.error (Err.invalidInput "Title cannot be empty")
          : Except Err (Option Str))
      else if s.length > 200 then
        Except.error (Err.invalidInput "Title must be less than 200 characters")
      else Except.ok (some (trimL s))) = Except.ok ut := h
    split_ifs at h with h1 h2
    cases Except.ok.inj h
    intro v hv
    rw [Option.mem_def] at hv
    injection hv with hv
    subst hv
    refine ⟨?_, le_trans (trimL_length_le s) (by omega)⟩
    rw [trimL_trimL]
    exact fun hc => h1 (by rw [hc]; rfl)

theorem TitleInv_patch {db : DB} {id : Nat} {u : UpdateData}
    (h : TitleInv db)
    (hu : ∀ v ∈ u.title, trimL v ≠ [] ∧ v.length ≤ 200) :
    TitleInv (db.patch id u) := by
  intro x hx
  obtain ⟨y, hy, hcase⟩ := mem_patch_todos hx
  rcases hcase with ⟨_, rfl⟩ | ⟨hid, rfl⟩
  · exact h _ hy
  · cases hut : u.title with
    | none =>
      have he : (patchTodo y u).title = y.title := by simp [patchTodo, hut]
      rw [he]
      exact h y hy
    | some v =>
      have he : (patchTodo y u).title = v := by simp [patchTodo, hut]
      rw [he]
      exact hu v (Option.mem_def.2 hut)

/-- C9: every operation preserves the persisted-title invariant — on any
store satisfying it, any successful `createTodo`, `updateTodo`,
`toggleTodoCompleted` or `deleteTodo` yields a store satisfying it. -/
theorem C9_title_invariant (db : DB) (h : TitleInv db) :
    (∀ ti d c t' db', createTodo db ti d c = .ok (t', db') → TitleInv db') ∧
    (∀ id ti de co t' db',
      updateTodo db id ti de co = .ok (t', db') → TitleInv db') ∧
    (∀ id t' db', toggleTodoCompleted db id = .ok (t', db') → TitleInv db') ∧
    (∀ id u db', deleteTodo db id = .ok (u, db') → TitleInv db') := by
  refine ⟨?_, ?_, ?_, ?_⟩
  · intro ti d c t' db' hok
    unfold createTodo at hok
    split at hok
    next e hte => exact Except.noConfusion hok
    next hte =>
      split at hok
      next e hde => exact Except.noConfusion hok
      next hde =>
        simp only [DB.insert] at hok
        split at hok
        next hg => exact Except.noConfusion hok
        next t hg =>
          have hpair := Except.ok.inj hok
          have hdb : db' = ⟨db.nextId + 1,
              db.todos ++ [⟨db.nextId, db.nextId, trimL ti, d.map trimL, c⟩]⟩ :=
            (congrArg Prod.snd hpair).symm
          subst hdb
          intro x hx
          rcases List.mem_append.1 hx with hx | hx
          · exact h x hx
          · have hx' : x = ⟨db.nextId, db.nextId, trimL ti, d.map trimL, c⟩ := by
              simpa using hx
            subst hx'
            obtain ⟨ht1, ht2⟩ := createTitleError_eq_none.1 hte
            refine ⟨?_, le_trans (trimL_length_le ti) ht2⟩
            show trimL (trimL ti) ≠ []
            rw [trimL_trimL]
            exact ht1
  · intro id ti de co t' db' hok
    unfold updateTodo at hok
    split at hok
    next hg => exact Except.noConfusion hok
    next t0 hg =>
      split at hok
      next e hti => exact Except.noConfusion hok
      next ut hti =>
        split at hok
        next e hde => exact Except.noConfusion hok
        next ud hde =>
          replace hok : (match (db.patch id ⟨ut, ud, co⟩).get id with
            | none => (Except.error (Err.persistenceError "Failed to update todo")
                : Except Err (Todo × DB))
            | some t => Except.ok (t, db.patch id ⟨ut, ud, co⟩))
              = Except.ok (t', db') := hok
          split at hok
          next hg2 => exact Except.noConfusion hok
          next t hg2 =>
            have hpair := Except.ok.inj hok
            have hdb : db' = db.patch id ⟨ut, ud, co⟩ :=
              (congrArg Prod.snd hpair).symm
            subst hdb
            exact TitleInv_patch h (updateTitleField_ok_inv hti)
  · intro id t' db' hok
    unfold toggleTodoCompleted at hok
    split at hok
    next hg => exact Except.noConfusion hok
    next t0 hg =>
      replace hok : (match
          (db.patch id ⟨none, none, some (!t0.completed)⟩).get id with
        | none => (Except.error (Err.persistenceError "Failed to update todo")
            : Except Err (Todo × DB))
        | some u => Except.ok (u, db.patch id ⟨none, none, some (!t0.completed)⟩))
          = Except.ok (t', db') := hok
      split at hok
      next hg2 => exact Except.noConfusion hok
      next t hg2 =>
        have hpair := Except.ok.inj hok
        have hdb : db' = db.patch id ⟨none, none, some (!t0.completed)⟩ :=
          (congrArg Prod.snd hpair).symm
        subst hdb
        refine TitleInv_patch h ?_
        intro v hv
        cases hv
  · intro id u db' hok
    unfold deleteTodo at hok
    split at hok
    next hg => exact Except.noConfusion hok
    next t0 hg =>
      have hpair := Except.ok.inj hok
      have hdb : db' = db.erase id := (congrArg Prod.snd hpair).symm
      subst hdb
      intro x hx
      unfold DB.erase at hx
      exact h x (List.mem_filter.1 hx).1

/-- C9 witness: the invariant holds on the two-record store and is carried
through a concrete delete. -/
theorem C9_witness :
    TitleInv dbW ∧ TitleInv (dbW.erase 1) :=
  ⟨by decide, (C9_title_invariant dbW (by decide)).2.2.2 1 () (dbW.erase 1) rfl⟩

/-! ### Claim C10 -/

/-- C10: a create call with an empty-string description (and valid title)
succeeds and persists the description as the empty string, while a create
call with no description persists an absent description; the two stored
records stay distinguishable and `getTodo` returns them as stored. -/
theorem C10_empty_vs_absent_description (db : DB) (title : Str) (c : Bool)
    (hwf : WF db) (ht1 : trimL title ≠ []) (ht2 : title.length ≤ 200) :
    (∃ t db', createTodo db title (some []) c = .ok (t, db') ∧
      t.description = some [] ∧ getTodo db' t.id = some t) ∧
    (∃ t db', createTodo db title none c = .ok (t, db') ∧
      t.description = none ∧ getTodo db' t.id = some t) := by
  have hfresh : ∀ u ∈ db.todos, u.id ≠ db.nextId :=
    fun u hu => Nat.ne_of_lt (hwf.1 u hu)
  constructor
  · refine ⟨_, _, createTodo_ok db title (some []) c hfresh ht1 ht2 ?_, rfl, ?_⟩
    · intro s hs
      rw [Option.mem_def] at hs
      injection hs with hs
      subst hs
      decide
    · simpa [getTodo, DB.insert] using
        DB.get_insert_fresh db (trimL title) ((some []).map trimL) c hfresh
  · refine ⟨_, _, createTodo_ok db title none c hfresh ht1 ht2 ?_, rfl, ?_⟩
    · intro s hs
      cases hs
    · simpa [getTodo, DB.insert] using
        DB.get_insert_fresh db (trimL title) ((none : Option Str).map trimL) c
          hfresh

/-- C10 witness at a concrete valid title on the empty store. -/
theorem C10_witness :
    (∃ t db', createTodo emptyDB ['h'] (some []) true = .ok (t, db') ∧
      t.description = some [] ∧ getTodo db' t.id = some t) ∧
    (∃ t db', createTodo emptyDB ['h'] none true = .ok (t, db') ∧
      t.description = none ∧ getTodo db' t.id = some t) :=
  C10_empty_vs_absent_description emptyDB ['h'] true (by decide) (by decide)
    (by decide)
